import Mathlib

/-!
Verification of the Rubik's cube core (`cube_model.py`, `cube_solver.py`).

The cube state is a mapping from the 6 face names to a 3×3 grid of facelet
colors (colors are the single-letter string codes used by the Python code,
so `Color` is `String`).  Every rotation helper in `cube_model.py` first
saves the strip it is about to overwrite into a temporary and then performs
a sequence of assignments each of which reads only pre-rotation values, so
each helper is translated as a pure "gather" function: the new state at a
destination position is the old state at the source position named by the
corresponding Python assignment.
-/

abbrev Color := String

inductive Face : Type
  | up
  | down
  | front
  | back
  | right
  | left
deriving DecidableEq, Repr

/-- The face-dictionary iteration order of `RubiksCube.faces`
(`up, down, front, back, right, left`). -/
def face_list : List Face := [.up, .down, .front, .back, .right, .left]

/-- A cube state: for each face a 3×3 grid of colors, indexed [row][col]. -/
abbrev Cube := Face → Fin 3 → Fin 3 → Color

/-- `RubiksCube.__init__`: the canonical solved cube
(up=W, down=Y, front=R, back=O, right=B, left=G). -/
def initial_cube : Cube := fun f _ _ =>
  match f with
  | .up => "W"
  | .down => "Y"
  | .front => "R"
  | .back => "O"
  | .right => "B"
  | .left => "G"

/-- `_rotate_face`: rotate one 3×3 grid by 90°.
Clockwise: `new[i][j] = old[2-j][i]`; counter-clockwise: `new[i][j] = old[j][2-i]`. -/
def rotate_face (cw : Bool) (g : Fin 3 → Fin 3 → Color) : Fin 3 → Fin 3 → Color :=
  if cw then fun i j => g (2 - j) i else fun i j => g j (2 - i)

/-- `_rotate_up`: rotate the `up` grid, then cycle row 0 of front/right/back/left.
cw: `front[0]=right[0]; right[0]=back[0]; back[0]=left[0]; left[0]=temp(front[0])`;
ccw: `front[0]=left[0]; left[0]=back[0]; back[0]=right[0]; right[0]=temp(front[0])`. -/
def rotate_up (cw : Bool) (c : Cube) : Cube := fun f =>
  match f with
  | .up => rotate_face cw (c .up)
  | .front => fun i j => if i = 0 then (if cw then c .right 0 j else c .left 0 j) else c .front i j
  | .right => fun i j => if i = 0 then (if cw then c .back 0 j else c .front 0 j) else c .right i j
  | .back => fun i j => if i = 0 then (if cw then c .left 0 j else c .right 0 j) else c .back i j
  | .left => fun i j => if i = 0 then (if cw then c .front 0 j else c .back 0 j) else c .left i j
  | .down => c .down

/-- `_rotate_down`: rotate the `down` grid, then cycle row 2 of the side faces.
cw: `front[2]=left[2]; left[2]=back[2]; back[2]=right[2]; right[2]=temp(front[2])`;
ccw: `front[2]=right[2]; right[2]=back[2]; back[2]=left[2]; left[2]=temp(front[2])`. -/
def rotate_down (cw : Bool) (c : Cube) : Cube := fun f =>
  match f with
  | .down => rotate_face cw (c .down)
  | .front => fun i j => if i = 2 then (if cw then c .left 2 j else c .right 2 j) else c .front i j
  | .left => fun i j => if i = 2 then (if cw then c .back 2 j else c .front 2 j) else c .left i j
  | .back => fun i j => if i = 2 then (if cw then c .right 2 j else c .left 2 j) else c .back i j
  | .right => fun i j => if i = 2 then (if cw then c .front 2 j else c .back 2 j) else c .right i j
  | .up => c .up

/-- `_rotate_right`: rotate the `right` grid, then cycle the right column strip.
cw: `front[i][2]=down[i][2]; down[i][2]=back[2-i][0]; back[2-i][0]=up[i][2];
up[i][2]=temp(front[i][2])`;
ccw: `front[i][2]=up[i][2]; up[i][2]=back[2-i][0]; back[2-i][0]=down[i][2];
down[i][2]=temp(front[i][2])`. -/
def rotate_right (cw : Bool) (c : Cube) : Cube := fun f =>
  match f with
  | .right => rotate_face cw (c .right)
  | .front => fun i j => if j = 2 then (if cw then c .down i 2 else c .up i 2) else c .front i j
  | .down => fun i j => if j = 2 then (if cw then c .back (2-i) 0 else c .front i 2) else c .down i j
  | .back => fun i j => if j = 0 then (if cw then c .up (2-i) 2 else c .down (2-i) 2) else c .back i j
  | .up => fun i j => if j = 2 then (if cw then c .front i 2 else c .back (2-i) 0) else c .up i j
  | .left => c .left

/-- `_rotate_left`: rotate the `left` grid, then cycle the left column strip.
cw: `front[i][0]=up[i][0]; up[i][0]=back[2-i][2]; back[2-i][2]=down[i][0];
down[i][0]=temp(front[i][0])`;
ccw: `front[i][0]=down[i][0]; down[i][0]=back[2-i][2]; back[2-i][2]=up[i][0];
up[i][0]=temp(front[i][0])`. -/
def rotate_left (cw : Bool) (c : Cube) : Cube := fun f =>
  match f with
  | .left => rotate_face cw (c .left)
  | .front => fun i j => if j = 0 then (if cw then c .up i 0 else c .down i 0) else c .front i j
  | .up => fun i j => if j = 0 then (if cw then c .back (2-i) 2 else c .front i 0) else c .up i j
  | .back => fun i j => if j = 2 then (if cw then c .down (2-i) 0 else c .up (2-i) 0) else c .back i j
  | .down => fun i j => if j = 0 then (if cw then c .front i 0 else c .back (2-i) 2) else c .down i j
  | .right => c .right

/-- `_rotate_front`: rotate the `front` grid, then cycle the bordering strips.
cw: `up[2][k]=left[2-k][2]; left[i][2]=down[0][i]; down[0][k]=right[2-k][0];
right[i][0]=temp(up[2][i])`;
ccw: `up[2][k]=right[k][0]; right[i][0]=down[0][2-i]; down[0][k]=left[k][2];
left[i][2]=temp(up[2][2-i])`. -/
def rotate_front (cw : Bool) (c : Cube) : Cube := fun f =>
  match f with
  | .front => rotate_face cw (c .front)
  | .up => fun i j => if i = 2 then (if cw then c .left (2-j) 2 else c .right j 0) else c .up i j
  | .left => fun i j => if j = 2 then (if cw then c .down 0 i else c .up 2 (2-i)) else c .left i j
  | .down => fun i j => if i = 0 then (if cw then c .right (2-j) 0 else c .left j 2) else c .down i j
  | .right => fun i j => if j = 0 then (if cw then c .up 2 i else c .down 0 (2-i)) else c .right i j
  | .back => c .back

/-- `_rotate_back`: rotate the `back` grid, then cycle the bordering strips.
cw: `up[0][k]=right[k][2]; right[i][2]=down[2][2-i]; down[2][k]=left[2-k][0];
left[i][0]=temp(up[0][2-i])`;
ccw: `up[0][k]=left[2-k][0]; left[i][0]=down[2][i]; down[2][k]=right[2-k][2];
right[i][2]=temp(up[0][i])`. -/
def rotate_back (cw : Bool) (c : Cube) : Cube := fun f =>
  match f with
  | .back => rotate_face cw (c .back)
  | .up => fun i j => if i = 0 then (if cw then c .right j 2 else c .left (2-j) 0) else c .up i j
  | .right => fun i j => if j = 2 then (if cw then c .down 2 (2-i) else c .up 0 i) else c .right i j
  | .down => fun i j => if i = 2 then (if cw then c .left (2-j) 0 else c .right (2-j) 2) else c .down i j
  | .left => fun i j => if j = 0 then (if cw then c .up 0 (2-i) else c .down 2 i) else c .left i j
  | .front => c .front

/-- The error raised by `_apply_base_move` for a symbol that is not one of
the 6 base letters (`ValueError(f"Invalid move: {move}")`, the spec's
`InvalidMove`). -/
inductive MoveError : Type
  | invalidMove (m : List Char)
deriving DecidableEq, Repr

/-- The apostrophe character that suffixes prime (counter-clockwise) moves. -/
def prime : Char := Char.ofNat 39

/-- `_apply_base_move(move, clockwise)`: dispatch on the base letter
(`U, D, L, R, F, B` in the source's `elif` order), raising `ValueError`
otherwise.  An error carries the cube state at raise time, which is the
unmodified input state. -/
def apply_base_move (c : Cube) (m : List Char) (cw : Bool) :
    Except (MoveError × Cube) Cube :=
  if m = ['U'] then .ok (rotate_up cw c)
  else if m = ['D'] then .ok (rotate_down cw c)
  else if m = ['L'] then .ok (rotate_left cw c)
  else if m = ['R'] then .ok (rotate_right cw c)
  else if m = ['F'] then .ok (rotate_front cw c)
  else if m = ['B'] then .ok (rotate_back cw c)
  else .error (.invalidMove m, c)

/-- `apply_move(move)`: a move ending in `'` applies the base move
counter-clockwise; a move ending in `2` applies the clockwise base move
twice; otherwise the symbol itself is applied clockwise.  Move symbols are
the Python strings, modelled as lists of characters; `endswith` becomes
`getLast?` and `move[:-1]` becomes `dropLast`. -/
def apply_move (c : Cube) (m : List Char) : Except (MoveError × Cube) Cube :=
  if m.getLast? = some prime then
    apply_base_move c m.dropLast false
  else if m.getLast? = some '2' then
    match apply_base_move c m.dropLast true with
    | .ok c1 => apply_base_move c1 m.dropLast true
    | .error e => .error e
  else
    apply_base_move c m true

/-- Apply a list of move symbols in order, stopping at the first error. -/
def apply_moves (c : Cube) : List (List Char) → Except (MoveError × Cube) Cube
  | [] => .ok c
  | m :: ms =>
    match apply_move c m with
    | .ok c1 => apply_moves c1 ms
    | .error e => .error e

/-- A cell address: face, row, column. -/
abbrev Pos := Face × Fin 3 × Fin 3

/-- Read one facelet of a cube. -/
def cube_at (c : Cube) (p : Pos) : Color := c p.1 p.2.1 p.2.2

/-- The facelet of an `.ok` move result at a given cell, `none` on error. -/
def result_at (r : Except (MoveError × Cube) Cube) (p : Pos) : Option Color :=
  match r with
  | .ok c => some (cube_at c p)
  | .error _ => none

/-- All 54 cell addresses, in the iteration order of `is_valid`
(faces in dictionary order, each face row-major). -/
def all_positions : List Pos :=
  face_list.flatMap fun f =>
    (List.finRange 3).flatMap fun i =>
      (List.finRange 3).map fun j => (f, i, j)

/-- The 54 facelet colors in `is_valid`'s iteration order. -/
def color_list (c : Cube) : List Color := all_positions.map (cube_at c)

/-- The 6 center facelets `faces[f][1][1]` in dictionary order. -/
def centers_list (c : Cube) : List Color := face_list.map fun f => c f 1 1

/-- `is_solved`: every facelet of every face equals that face's center. -/
def is_solved (c : Cube) : Bool :=
  face_list.all fun f =>
    (List.finRange 3).all fun i =>
      (List.finRange 3).all fun j => c f i j == c f 1 1

/-- `_validate_pieces`: the source's simplified placeholder, always true. -/
def validate_pieces (_c : Cube) : Bool := true

/-- The 6 color codes checked by `is_valid`, in the source's order. -/
def letters : List Color := ["W", "Y", "R", "O", "B", "G"]

/-- `is_valid`: each of the 6 color codes appears exactly 9 times among the
54 facelets, the 6 centers are pairwise distinct (`len(set(centers)) == 6`),
and `_validate_pieces` passes. -/
def is_valid (c : Cube) : Bool :=
  (letters.all fun col => (color_list c).count col == 9)
    && ((centers_list c).dedup.length == 6)
    && validate_pieces c

/-! ### Each rotation as a position permutation

For each rotation helper, `sig_X cw` sends a destination cell to the source
cell whose color it receives, mirroring the gather form of `rotate_X`. -/

/-- Source-position map of `rotate_up`. -/
def sig_up (cw : Bool) : Pos → Pos := fun p =>
  match p with
  | (.up, i, j) => if cw then (.up, 2 - j, i) else (.up, j, 2 - i)
  | (.front, i, j) => if i = 0 then (if cw then (.right, 0, j) else (.left, 0, j)) else (.front, i, j)
  | (.right, i, j) => if i = 0 then (if cw then (.back, 0, j) else (.front, 0, j)) else (.right, i, j)
  | (.back, i, j) => if i = 0 then (if cw then (.left, 0, j) else (.right, 0, j)) else (.back, i, j)
  | (.left, i, j) => if i = 0 then (if cw then (.front, 0, j) else (.back, 0, j)) else (.left, i, j)
  | (.down, i, j) => (.down, i, j)

/-- Source-position map of `rotate_down`. -/
def sig_down (cw : Bool) : Pos → Pos := fun p =>
  match p with
  | (.down, i, j) => if cw then (.down, 2 - j, i) else (.down, j, 2 - i)
  | (.front, i, j) => if i = 2 then (if cw then (.left, 2, j) else (.right, 2, j)) else (.front, i, j)
  | (.left, i, j) => if i = 2 then (if cw then (.back, 2, j) else (.front, 2, j)) else (.left, i, j)
  | (.back, i, j) => if i = 2 then (if cw then (.right, 2, j) else (.left, 2, j)) else (.back, i, j)
  | (.right, i, j) => if i = 2 then (if cw then (.front, 2, j) else (.back, 2, j)) else (.right, i, j)
  | (.up, i, j) => (.up, i, j)

/-- Source-position map of `rotate_right`. -/
def sig_right (cw : Bool) : Pos → Pos := fun p =>
  match p with
  | (.right, i, j) => if cw then (.right, 2 - j, i) else (.right, j, 2 - i)
  | (.front, i, j) => if j = 2 then (if cw then (.down, i, 2) else (.up, i, 2)) else (.front, i, j)
  | (.down, i, j) => if j = 2 then (if cw then (.back, 2-i, 0) else (.front, i, 2)) else (.down, i, j)
  | (.back, i, j) => if j = 0 then (if cw then (.up, 2-i, 2) else (.down, 2-i, 2)) else (.back, i, j)
  | (.up, i, j) => if j = 2 then (if cw then (.front, i, 2) else (.back, 2-i, 0)) else (.up, i, j)
  | (.left, i, j) => (.left, i, j)

/-- Source-position map of `rotate_left`. -/
def sig_left (cw : Bool) : Pos → Pos := fun p =>
  match p with
  | (.left, i, j) => if cw then (.left, 2 - j, i) else (.left, j, 2 - i)
  | (.front, i, j) => if j = 0 then (if cw then (.up, i, 0) else (.down, i, 0)) else (.front, i, j)
  | (.up, i, j) => if j = 0 then (if cw then (.back, 2-i, 2) else (.front, i, 0)) else (.up, i, j)
  | (.back, i, j) => if j = 2 then (if cw then (.down, 2-i, 0) else (.up, 2-i, 0)) else (.back, i, j)
  | (.down, i, j) => if j = 0 then (if cw then (.front, i, 0) else (.back, 2-i, 2)) else (.down, i, j)
  | (.right, i, j) => (.right, i, j)

/-- Source-position map of `rotate_front`. -/
def sig_front (cw : Bool) : Pos → Pos := fun p =>
  match p with
  | (.front, i, j) => if cw then (.front, 2 - j, i) else (.front, j, 2 - i)
  | (.up, i, j) => if i = 2 then (if cw then (.left, 2-j, 2) else (.right, j, 0)) else (.up, i, j)
  | (.left, i, j) => if j = 2 then (if cw then (.down, 0, i) else (.up, 2, 2-i)) else (.left, i, j)
  | (.down, i, j) => if i = 0 then (if cw then (.right, 2-j, 0) else (.left, j, 2)) else (.down, i, j)
  | (.right, i, j) => if j = 0 then (if cw then (.up, 2, i) else (.down, 0, 2-i)) else (.right, i, j)
  | (.back, i, j) => (.back, i, j)

/-- Source-position map of `rotate_back`. -/
def sig_back (cw : Bool) : Pos → Pos := fun p =>
  match p with
  | (.back, i, j) => if cw then (.back, 2 - j, i) else (.back, j, 2 - i)
  | (.up, i, j) => if i = 0 then (if cw then (.right, j, 2) else (.left, 2-j, 0)) else (.up, i, j)
  | (.right, i, j) => if j = 2 then (if cw then (.down, 2, 2-i) else (.up, 0, i)) else (.right, i, j)
  | (.down, i, j) => if i = 2 then (if cw then (.left, 2-j, 0) else (.right, 2-j, 2)) else (.down, i, j)
  | (.left, i, j) => if j = 0 then (if cw then (.up, 0, 2-i) else (.down, 2, i)) else (.left, i, j)
  | (.front, i, j) => (.front, i, j)

theorem rotate_up_at (cw : Bool) (c : Cube) (p : Pos) :
    cube_at (rotate_up cw c) p = cube_at c (sig_up cw p) := by
  rcases p with ⟨f, i, j⟩
  cases cw <;> cases f <;> fin_cases i <;> fin_cases j <;> rfl

theorem rotate_down_at (cw : Bool) (c : Cube) (p : Pos) :
    cube_at (rotate_down cw c) p = cube_at c (sig_down cw p) := by
  rcases p with ⟨f, i, j⟩
  cases cw <;> cases f <;> fin_cases i <;> fin_cases j <;> rfl

theorem rotate_right_at (cw : Bool) (c : Cube) (p : Pos) :
    cube_at (rotate_right cw c) p = cube_at c (sig_right cw p) := by
  rcases p with ⟨f, i, j⟩
  cases cw <;> cases f <;> fin_cases i <;> fin_cases j <;> rfl

theorem rotate_left_at (cw : Bool) (c : Cube) (p : Pos) :
    cube_at (rotate_left cw c) p = cube_at c (sig_left cw p) := by
  rcases p with ⟨f, i, j⟩
  cases cw <;> cases f <;> fin_cases i <;> fin_cases j <;> rfl

theorem rotate_front_at (cw : Bool) (c : Cube) (p : Pos) :
    cube_at (rotate_front cw c) p = cube_at c (sig_front cw p) := by
  rcases p with ⟨f, i, j⟩
  cases cw <;> cases f <;> fin_cases i <;> fin_cases j <;> rfl

theorem rotate_back_at (cw : Bool) (c : Cube) (p : Pos) :
    cube_at (rotate_back cw c) p = cube_at c (sig_back cw p) := by
  rcases p with ⟨f, i, j⟩
  cases cw <;> cases f <;> fin_cases i <;> fin_cases j <;> rfl

theorem sig_up_perm (cw : Bool) : (all_positions.map (sig_up cw)).Perm all_positions := by
  cases cw <;> decide

theorem sig_down_perm (cw : Bool) : (all_positions.map (sig_down cw)).Perm all_positions := by
  cases cw <;> decide

theorem sig_right_perm (cw : Bool) : (all_positions.map (sig_right cw)).Perm all_positions := by
  cases cw <;> decide

theorem sig_left_perm (cw : Bool) : (all_positions.map (sig_left cw)).Perm all_positions := by
  cases cw <;> decide

theorem sig_front_perm (cw : Bool) : (all_positions.map (sig_front cw)).Perm all_positions := by
  cases cw <;> decide

theorem sig_back_perm (cw : Bool) : (all_positions.map (sig_back cw)).Perm all_positions := by
  cases cw <;> decide

/-- A state transformer that reads through a position permutation and keeps
the centers produces a permuted color multiset, hence the same `is_valid`. -/
theorem is_valid_of_sig (c c' : Cube) (σ : Pos → Pos)
    (hat : ∀ p, cube_at c' p = cube_at c (σ p))
    (hperm : (all_positions.map σ).Perm all_positions)
    (hcent : centers_list c' = centers_list c) :
    is_valid c' = is_valid c := by
  have hcl : color_list c' = (all_positions.map σ).map (cube_at c) := by
    rw [color_list, List.map_map]
    exact List.map_congr_left fun p _ => hat p
  have hp2 : (color_list c').Perm (color_list c) := by
    rw [hcl, color_list]
    exact hperm.map (cube_at c)
  have hcount : ∀ col, (color_list c').count col = (color_list c).count col :=
    fun col => hp2.count_eq col
  simp only [is_valid, hcent, hcount, validate_pieces]

theorem rotate_up_centers (cw : Bool) (c : Cube) :
    centers_list (rotate_up cw c) = centers_list c := by
  cases cw <;> rfl

theorem rotate_down_centers (cw : Bool) (c : Cube) :
    centers_list (rotate_down cw c) = centers_list c := by
  cases cw <;> rfl

theorem rotate_right_centers (cw : Bool) (c : Cube) :
    centers_list (rotate_right cw c) = centers_list c := by
  cases cw <;> rfl

theorem rotate_left_centers (cw : Bool) (c : Cube) :
    centers_list (rotate_left cw c) = centers_list c := by
  cases cw <;> rfl

theorem rotate_front_centers (cw : Bool) (c : Cube) :
    centers_list (rotate_front cw c) = centers_list c := by
  cases cw <;> rfl

theorem rotate_back_centers (cw : Bool) (c : Cube) :
    centers_list (rotate_back cw c) = centers_list c := by
  cases cw <;> rfl

theorem rotate_up_valid (cw : Bool) (c : Cube) :
    is_valid (rotate_up cw c) = is_valid c :=
  is_valid_of_sig c _ (sig_up cw) (rotate_up_at cw c) (sig_up_perm cw)
    (rotate_up_centers cw c)

theorem rotate_down_valid (cw : Bool) (c : Cube) :
    is_valid (rotate_down cw c) = is_valid c :=
  is_valid_of_sig c _ (sig_down cw) (rotate_down_at cw c) (sig_down_perm cw)
    (rotate_down_centers cw c)

theorem rotate_right_valid (cw : Bool) (c : Cube) :
    is_valid (rotate_right cw c) = is_valid c :=
  is_valid_of_sig c _ (sig_right cw) (rotate_right_at cw c) (sig_right_perm cw)
    (rotate_right_centers cw c)

theorem rotate_left_valid (cw : Bool) (c : Cube) :
    is_valid (rotate_left cw c) = is_valid c :=
  is_valid_of_sig c _ (sig_left cw) (rotate_left_at cw c) (sig_left_perm cw)
    (rotate_left_centers cw c)

theorem rotate_front_valid (cw : Bool) (c : Cube) :
    is_valid (rotate_front cw c) = is_valid c :=
  is_valid_of_sig c _ (sig_front cw) (rotate_front_at cw c) (sig_front_perm cw)
    (rotate_front_centers cw c)

theorem rotate_back_valid (cw : Bool) (c : Cube) :
    is_valid (rotate_back cw c) = is_valid c :=
  is_valid_of_sig c _ (sig_back cw) (rotate_back_at cw c) (sig_back_perm cw)
    (rotate_back_centers cw c)

/-- A successful `_apply_base_move` preserves `is_valid`. -/
theorem apply_base_move_valid (c : Cube) (m : List Char) (cw : Bool) (c' : Cube)
    (h : apply_base_move c m cw = .ok c') : is_valid c' = is_valid c := by
  unfold apply_base_move at h
  split_ifs at h
  · cases h; exact rotate_up_valid cw c
  · cases h; exact rotate_down_valid cw c
  · cases h; exact rotate_left_valid cw c
  · cases h; exact rotate_right_valid cw c
  · cases h; exact rotate_front_valid cw c
  · cases h; exact rotate_back_valid cw c

/-- A successful `_apply_base_move` keeps all 6 center facelets. -/
theorem apply_base_move_centers (c : Cube) (m : List Char) (cw : Bool) (c' : Cube)
    (h : apply_base_move c m cw = .ok c') : centers_list c' = centers_list c := by
  unfold apply_base_move at h
  split_ifs at h
  · cases h; exact rotate_up_centers cw c
  · cases h; exact rotate_down_centers cw c
  · cases h; exact rotate_left_centers cw c
  · cases h; exact rotate_right_centers cw c
  · cases h; exact rotate_front_centers cw c
  · cases h; exact rotate_back_centers cw c

/-- A successful `apply_move` preserves `is_valid`. -/
theorem apply_move_valid (c : Cube) (m : List Char) (c' : Cube)
    (h : apply_move c m = .ok c') : is_valid c' = is_valid c := by
  unfold apply_move at h
  split_ifs at h
  · exact apply_base_move_valid _ _ _ _ h
  · cases hb : apply_base_move c m.dropLast true with
    | ok c1 =>
        rw [hb] at h
        exact (apply_base_move_valid _ _ _ _ h).trans (apply_base_move_valid _ _ _ _ hb)
    | error e => rw [hb] at h; exact Except.noConfusion h
  · exact apply_base_move_valid _ _ _ _ h

/-- A successful `apply_move` keeps all 6 center facelets. -/
theorem apply_move_centers (c : Cube) (m : List Char) (c' : Cube)
    (h : apply_move c m = .ok c') : centers_list c' = centers_list c := by
  unfold apply_move at h
  split_ifs at h
  · exact apply_base_move_centers _ _ _ _ h
  · cases hb : apply_base_move c m.dropLast true with
    | ok c1 =>
        rw [hb] at h
        exact (apply_base_move_centers _ _ _ _ h).trans (apply_base_move_centers _ _ _ _ hb)
    | error e => rw [hb] at h; exact Except.noConfusion h
  · exact apply_base_move_centers _ _ _ _ h

/-- A successful `apply_moves` run preserves `is_valid`. -/
theorem apply_moves_valid :
    ∀ (ms : List (List Char)) (c c' : Cube),
      apply_moves c ms = .ok c' → is_valid c' = is_valid c := by
  intro ms
  induction ms with
  | nil => intro c c' h; cases h; rfl
  | cons m ms ih =>
      intro c c' h
      unfold apply_moves at h
      cases hm : apply_move c m with
      | ok c1 =>
          rw [hm] at h
          exact (ih c1 c' h).trans (apply_move_valid _ _ _ hm)
      | error e => rw [hm] at h; exact Except.noConfusion h

/-- Equality of the centers lists gives equality of every face's center. -/
theorem centers_list_eq_iff (a b : Cube) (h : centers_list a = centers_list b) :
    ∀ f, a f 1 1 = b f 1 1 := by
  simp only [centers_list, face_list, List.map_cons, List.map_nil,
    List.cons.injEq, and_true] at h
  obtain ⟨h1, h2, h3, h4, h5, h6⟩ := h
  intro f
  cases f <;> assumption

/-- The 18-element move alphabet, in the spec's order. -/
def alphabet18 : List (List Char) :=
  [['U'], ['U', prime], ['U', '2'], ['D'], ['D', prime], ['D', '2'],
   ['L'], ['L', prime], ['L', '2'], ['R'], ['R', prime], ['R', '2'],
   ['F'], ['F', prime], ['F', '2'], ['B'], ['B', prime], ['B', '2']]

/-- The 6 base move symbols. -/
def base_moves : List (List Char) := [['U'], ['D'], ['L'], ['R'], ['F'], ['B']]

/-- Every alphabet move symbol is accepted by `apply_move`. -/
theorem apply_move_ok_of_mem (c : Cube) (m : List Char) (hm : m ∈ alphabet18) :
    ∃ c', apply_move c m = .ok c' := by
  fin_cases hm <;> exact ⟨_, rfl⟩

/-- C7: the freshly constructed cube is solved and valid: `is_solved` and
`is_valid` both return true on the canonical solved state. -/
theorem C7_initial_cube_is_solved_and_valid :
    is_solved initial_cube = true ∧ is_valid initial_cube = true := by
  decide

/-- C3: for every base move X and every cube state, `apply_move(X + "2")`
produces exactly `apply_move(X)` followed by `apply_move(X)`. -/
theorem C3_double_move_is_two_quarter_turns :
    ∀ b ∈ base_moves, ∀ c : Cube,
      apply_move c (b ++ ['2']) = (apply_move c b).bind fun c1 => apply_move c1 b := by
  intro b hb c
  fin_cases hb <;> rfl

theorem C3_double_move_witness :
    apply_move initial_cube (['U'] ++ ['2'])
      = (apply_move initial_cube ['U']).bind fun c1 => apply_move c1 ['U'] :=
  C3_double_move_is_two_quarter_turns ['U'] (by decide) initial_cube

/-- C1 fails on the code: on the valid cube obtained by applying U to the
solved cube, applying B and then B' does not restore the state — the
facelet at left[0][0] ends as "G" although it started as "R" (the
counter-clockwise branch of `_rotate_back` is not the inverse of the
clockwise branch). -/
theorem C1_back_move_inverse_law_fails :
    result_at (apply_moves (rotate_up true initial_cube) [['B'], ['B', prime]])
        (.left, 0, 0) = some "G"
      ∧ cube_at (rotate_up true initial_cube) (.left, 0, 0) = "R" := by
  decide

/-- C2 fails on the code: on the valid cube obtained by applying U to the
solved cube, applying B four times does not restore the state — the
facelet at right[0][2] ends as "B" although it started as "O" (the
clockwise `_rotate_back` permutation has order 8, not 4). -/
theorem C2_four_back_turns_not_identity :
    result_at (apply_moves (rotate_up true initial_cube) [['B'], ['B'], ['B'], ['B']])
        (.right, 0, 2) = some "B"
      ∧ cube_at (rotate_up true initial_cube) (.right, 0, 2) = "O" := by
  decide

/-- C9: every move of the 18-element alphabet succeeds and leaves the
center facelet (grid position [1][1]) of every face unchanged. -/
theorem C9_moves_fix_centers (c : Cube) (m : List Char) (hm : m ∈ alphabet18) :
    ∃ c', apply_move c m = .ok c' ∧ ∀ f, c' f 1 1 = c f 1 1 := by
  obtain ⟨c', hc'⟩ := apply_move_ok_of_mem c m hm
  exact ⟨c', hc', centers_list_eq_iff c' c (apply_move_centers c m c' hc')⟩

theorem C9_moves_fix_centers_witness :
    ∃ c', apply_move initial_cube ['F'] = .ok c' ∧ ∀ f, c' f 1 1 = initial_cube f 1 1 :=
  C9_moves_fix_centers initial_cube ['F'] (by decide)

/-- C10: every alphabet move succeeds and preserves `is_valid` (it permutes
the 54 facelets and fixes the centers); consequently every cube reachable
from the solved state by alphabet moves is valid. -/
theorem C10_moves_preserve_is_valid :
    (∀ (c : Cube) (m : List Char), m ∈ alphabet18 →
        ∃ c', apply_move c m = .ok c' ∧ is_valid c' = is_valid c)
      ∧ (∀ (ms : List (List Char)) (c' : Cube), (∀ m ∈ ms, m ∈ alphabet18) →
          apply_moves initial_cube ms = .ok c' → is_valid c' = true) := by
  constructor
  · intro c m hm
    obtain ⟨c', hc'⟩ := apply_move_ok_of_mem c m hm
    exact ⟨c', hc', apply_move_valid c m c' hc'⟩
  · intro ms c' _ h
    rw [apply_moves_valid ms initial_cube c' h]
    decide

theorem C10_moves_preserve_is_valid_witness :
    ∃ c', apply_move initial_cube ['R'] = .ok c' ∧ is_valid c' = is_valid initial_cube :=
  C10_moves_preserve_is_valid.1 initial_cube ['R'] (by decide)

theorem base_subset_alphabet : ∀ x ∈ base_moves, x ∈ alphabet18 := by decide

/-- `_apply_base_move` on a non-base symbol raises `InvalidMove` with the
state untouched. -/
theorem apply_base_move_err (c : Cube) (m : List Char) (cw : Bool)
    (h : m ∉ base_moves) :
    apply_base_move c m cw = .error (.invalidMove m, c) := by
  simp only [base_moves, List.mem_cons, List.mem_singleton, not_or] at h
  obtain ⟨h1, h2, h3, h4, h5, h6⟩ := h
  simp [apply_base_move, h1, h2, h3, h4, h5, h6]

/-- C8: a symbol inside the 18-element alphabet never raises `InvalidMove`;
a symbol outside it makes `apply_move` fail with `InvalidMove`, the error
carrying the completely unchanged cube state. -/
theorem C8_apply_move_alphabet (c : Cube) (m : List Char) :
    (m ∈ alphabet18 → ∃ c', apply_move c m = .ok c')
      ∧ (m ∉ alphabet18 → ∃ b, apply_move c m = .error (.invalidMove b, c)) := by
  refine ⟨apply_move_ok_of_mem c m, ?_⟩
  intro hm
  induction m using List.reverseRecOn with
  | nil => exact ⟨[], rfl⟩
  | append_singleton ms a _ih =>
    have hgl : (ms ++ [a]).getLast? = some a := List.getLast?_concat ms
    have hdl : (ms ++ [a]).dropLast = ms := List.dropLast_concat
    by_cases hp : a = prime
    · subst hp
      have hms : ms ∉ base_moves := by
        intro hmem
        apply hm
        fin_cases hmem <;> decide
      exact ⟨ms, by simp [apply_move, hgl, hdl, apply_base_move_err c ms false hms]⟩
    · by_cases h2 : a = '2'
      · subst h2
        have hms : ms ∉ base_moves := by
          intro hmem
          apply hm
          fin_cases hmem <;> decide
        have hne : ¬ (('2' : Char) = prime) := by decide
        refine ⟨ms, ?_⟩
        simp only [apply_move, hgl, hdl, Option.some.injEq, hne, if_false, if_true,
          apply_base_move_err c ms true hms]
      · have hms : ms ++ [a] ∉ base_moves := fun hmem => hm (base_subset_alphabet _ hmem)
        refine ⟨ms ++ [a], ?_⟩
        simp only [apply_move, hgl, hdl, Option.some.injEq, hp, h2, if_false]
        exact apply_base_move_err c (ms ++ [a]) true hms

theorem C8_apply_move_alphabet_witness :
    (['U'] ∈ alphabet18 → ∃ c', apply_move initial_cube ['U'] = .ok c')
      ∧ (['U'] ∉ alphabet18 →
          ∃ b, apply_move initial_cube ['U'] = .error (.invalidMove b, initial_cube)) :=
  C8_apply_move_alphabet initial_cube ['U']

/-! ### The solver adapter (`cube_solver.py`) -/

/-- A `KeyError` while translating a facelet color through the
center-color-to-letter dictionary in `_to_kociemba_string`. -/
inductive EncodeError : Type
  | keyError (col : Color)
deriving DecidableEq, Repr

/-- One Python dictionary assignment `d[k] = v` (later assignments win). -/
def dict_insert (d : Color → Option Char) (k : Color) (v : Char) :
    Color → Option Char :=
  fun x => if x = k then some v else d x

/-- The `color_map` dictionary of `_to_kociemba_string`: the 6 center colors
assigned the letters U,R,F,D,L,B in the kociemba face order
`up, right, front, down, left, back`. -/
def color_map_dict (c : Cube) : Color → Option Char :=
  dict_insert (dict_insert (dict_insert (dict_insert (dict_insert (dict_insert
    (fun _ => none)
    (c .up 1 1) 'U')
    (c .right 1 1) 'R')
    (c .front 1 1) 'F')
    (c .down 1 1) 'D')
    (c .left 1 1) 'L')
    (c .back 1 1) 'B'

/-- The kociemba emission order of `_to_kociemba_string`: faces
`up, right, front, down, left, back`, each row-major. -/
def kociemba_positions : List Pos :=
  [Face.up, .right, .front, .down, .left, .back].flatMap fun f =>
    (List.finRange 3).flatMap fun i =>
      (List.finRange 3).map fun j => (f, i, j)

/-- The string-building loop of `_to_kociemba_string`: translate each cell
through the dictionary, raising `KeyError` at the first missing color. -/
def encode_cells (d : Color → Option Char) (c : Cube) :
    List Pos → Except EncodeError (List Char)
  | [] => .ok []
  | p :: ps =>
    match d (cube_at c p) with
    | some ch =>
      match encode_cells d c ps with
      | .ok s => .ok (ch :: s)
      | .error e => .error e
    | none => .error (.keyError (cube_at c p))

/-- `_to_kociemba_string`: the 54-character facelet string, or a `KeyError`
if some facelet color is not among the 6 center colors. -/
def to_kociemba_string (c : Cube) : Except EncodeError (List Char) :=
  encode_cells (color_map_dict c) c kociemba_positions

/-- `_generate_simple_solution`: the fixed fallback move list
(`simple_moves[:25]`, which is all 15 entries). -/
def simple_moves : List (List Char) :=
  [['F', '2'], ['R', '2'], ['U', '2'], ['B', '2'], ['L', '2'],
   ['R'], ['U'], ['R', prime], ['U', prime], ['F'],
   ['R'], ['U'], ['R', prime], ['U', prime], ['F', prime]]

def generate_simple_solution : List (List Char) := simple_moves.take 25

/-- Python `str.split()`: split on every whitespace character and drop the
empty pieces. -/
def words (s : List Char) : List (List Char) :=
  (s.foldr
    (fun ch acc =>
      if ch.isWhitespace then [] :: acc
      else
        match acc with
        | [] => [[ch]]
        | w :: ws => (ch :: w) :: ws)
    []).filter (· ≠ [])

/-- The observable outcome of `RubiksCubeSolver.solve`: the returned token
list, and whether the external `kociemba.solve` collaborator was invoked. -/
structure SolveResult : Type where
  solution : List (List Char)
  invoked : Bool
deriving DecidableEq, Repr

/-- `RubiksCubeSolver.solve`, parameterised by the behaviour of the
external collaborator `kociemba.solve` (any returned string, or any raised
error of any type `ε`).  A `KeyError` from `_to_kociemba_string` happens
outside the `try` block and so propagates to the caller. -/
def solver_solve {ε : Type} (oracle : List Char → Except ε (List Char)) (c : Cube) :
    Except EncodeError SolveResult :=
  if is_solved c then .ok ⟨[], false⟩
  else if !(is_valid c) then .ok ⟨[], false⟩
  else
    match to_kociemba_string c with
    | .error e => .error e
    | .ok cube_str =>
      match oracle cube_str with
      | .ok solution_str => .ok ⟨words solution_str, true⟩
      | .error _ => .ok ⟨generate_simple_solution, true⟩

theorem is_valid_parts (c : Cube) (h : is_valid c = true) :
    (∀ col ∈ letters, (color_list c).count col = 9)
      ∧ (centers_list c).dedup.length = 6 := by
  simp only [is_valid, Bool.and_eq_true, List.all_eq_true, beq_iff_eq] at h
  exact ⟨h.1.1, h.1.2⟩

theorem centers_nodup_of_valid (c : Cube) (h : is_valid c = true) :
    (centers_list c).Nodup := by
  have h6 : (centers_list c).dedup.length = 6 := (is_valid_parts c h).2
  have hlen : (centers_list c).length = 6 := rfl
  have hsub : (centers_list c).dedup.Sublist (centers_list c) := List.dedup_sublist _
  have heq : (centers_list c).dedup = centers_list c :=
    hsub.eq_of_length (by rw [h6, hlen])
  rw [← heq]
  exact List.nodup_dedup _

theorem mem_letters_of_valid (c : Cube) (h : is_valid c = true) :
    ∀ x ∈ color_list c, x ∈ letters := by
  have h9 : ∀ col ∈ letters, (color_list c).count col = 9 := (is_valid_parts c h).1
  intro x hx
  by_contra hxl
  have hcard : Multiset.card (↑(color_list c) : Multiset Color) = 54 := rfl
  have hsum : ∑ a ∈ (↑(color_list c) : Multiset Color).toFinset,
      (↑(color_list c) : Multiset Color).count a = 54 := by
    rw [Multiset.toFinset_sum_count_eq]
    exact hcard
  have hLsub : letters.toFinset ⊆ (↑(color_list c) : Multiset Color).toFinset := by
    intro y hy
    have hy' : y ∈ letters := List.mem_toFinset.mp hy
    have : (↑(color_list c) : Multiset Color).count y = 9 := by
      rw [Multiset.coe_count]
      exact h9 y hy'
    exact Multiset.mem_toFinset.mpr (Multiset.one_le_count_iff_mem.mp (by omega))
  have hxFin : x ∈ (↑(color_list c) : Multiset Color).toFinset :=
    Multiset.mem_toFinset.mpr (by exact_mod_cast hx)
  have hins : insert x letters.toFinset ⊆ (↑(color_list c) : Multiset Color).toFinset := by
    intro y hy
    rcases Finset.mem_insert.mp hy with hy | hy
    · exact hy ▸ hxFin
    · exact hLsub hy
  have hle : ∑ a ∈ insert x letters.toFinset,
      (↑(color_list c) : Multiset Color).count a ≤ 54 := by
    rw [← hsum]
    exact Finset.sum_le_sum_of_subset hins
  have hsplit : ∑ a ∈ insert x letters.toFinset,
        (↑(color_list c) : Multiset Color).count a
      = (↑(color_list c) : Multiset Color).count x
        + ∑ a ∈ letters.toFinset, (↑(color_list c) : Multiset Color).count a :=
    Finset.sum_insert (by simpa [List.mem_toFinset] using hxl)
  have hsumL : ∑ a ∈ letters.toFinset,
      (↑(color_list c) : Multiset Color).count a = 54 := by
    have hcongr : ∀ a ∈ letters.toFinset,
        (↑(color_list c) : Multiset Color).count a = 9 := by
      intro a ha
      rw [Multiset.coe_count]
      exact h9 a (List.mem_toFinset.mp ha)
    rw [Finset.sum_congr rfl hcongr, Finset.sum_const, smul_eq_mul]
    have : letters.toFinset.card = 6 := by decide
    rw [this]
  have hx1 : 1 ≤ (↑(color_list c) : Multiset Color).count x :=
    Multiset.one_le_count_iff_mem.mpr (by exact_mod_cast hx)
  omega

theorem centers_subset_color_list (c : Cube) :
    ∀ x ∈ centers_list c, x ∈ color_list c := by
  intro x hx
  simp only [centers_list, List.mem_map] at hx
  obtain ⟨f, hf, rfl⟩ := hx
  have hp : (f, (1 : Fin 3), (1 : Fin 3)) ∈ all_positions := by
    cases f <;> decide
  exact List.mem_map_of_mem (cube_at c) hp

theorem letters_subset_centers (c : Cube) (h : is_valid c = true) :
    ∀ y ∈ letters, y ∈ centers_list c := by
  have hnd : (centers_list c).Nodup := centers_nodup_of_valid c h
  have hmem : ∀ x ∈ centers_list c, x ∈ letters := fun x hx =>
    mem_letters_of_valid c h x (centers_subset_color_list c x hx)
  have hsub : (centers_list c).toFinset ⊆ letters.toFinset := by
    intro y hy
    exact List.mem_toFinset.mpr (hmem y (List.mem_toFinset.mp hy))
  have hcard1 : (centers_list c).toFinset.card = 6 := by
    rw [List.toFinset_card_of_nodup hnd]
    rfl
  have hcard2 : letters.toFinset.card = 6 := by decide
  have heq : (centers_list c).toFinset = letters.toFinset :=
    Finset.eq_of_subset_of_card_le hsub (by rw [hcard1, hcard2])
  intro y hy
  exact List.mem_toFinset.mp (heq ▸ List.mem_toFinset.mpr hy)

theorem color_map_dict_isSome (c : Cube) (col : Color)
    (h : col ∈ centers_list c) : (color_map_dict c col).isSome := by
  simp only [centers_list, face_list, List.map_cons, List.map_nil, List.mem_cons,
    List.not_mem_nil, or_false] at h
  simp only [color_map_dict, dict_insert]
  split_ifs <;> simp_all

theorem encode_cells_ok (d : Color → Option Char) (c : Cube) :
    ∀ ps : List Pos, (∀ p ∈ ps, (d (cube_at c p)).isSome) →
      ∃ s, encode_cells d c ps = .ok s := by
  intro ps
  induction ps with
  | nil => exact fun _ => ⟨[], rfl⟩
  | cons p ps ih =>
      intro hall
      obtain ⟨ch, hch⟩ := Option.isSome_iff_exists.mp (hall p (List.mem_cons_self p ps))
      obtain ⟨s, hs⟩ := ih fun q hq => hall q (List.mem_cons_of_mem p hq)
      exact ⟨ch :: s, by simp [encode_cells, hch, hs]⟩

theorem to_kociemba_ok_of_valid (c : Cube) (h : is_valid c = true) :
    ∃ s, to_kociemba_string c = .ok s := by
  apply encode_cells_ok
  intro p hp
  have hpal : p ∈ all_positions := by
    revert hp
    have : ∀ q ∈ kociemba_positions, q ∈ all_positions := by decide
    exact this p
  have hcol : cube_at c p ∈ color_list c := List.mem_map_of_mem (cube_at c) hpal
  exact color_map_dict_isSome c (cube_at c p)
    (letters_subset_centers c h _ (mem_letters_of_valid c h _ hcol))

/-- C6: on a valid cube every one of the 54 facelet colors is among the 6
center colors, so the encoding to the external 54-character facelet string
succeeds (the center-color-to-letter translation never hits a `KeyError`). -/
theorem C6_valid_cube_encodes (c : Cube) (h : is_valid c = true) :
    (∀ col ∈ color_list c, col ∈ centers_list c)
      ∧ ∃ s, to_kociemba_string c = .ok s := by
  refine ⟨fun col hcol => ?_, to_kociemba_ok_of_valid c h⟩
  exact letters_subset_centers c h col (mem_letters_of_valid c h col hcol)

theorem C6_valid_cube_encodes_witness :
    (∀ col ∈ color_list initial_cube, col ∈ centers_list initial_cube)
      ∧ ∃ s, to_kociemba_string initial_cube = .ok s :=
  C6_valid_cube_encodes initial_cube (by decide)

/-- C4: on a solved cube, `solve` returns the empty solution without
invoking the external collaborator, whatever the collaborator would have
returned or raised. -/
theorem C4_solve_solved_fast_path {ε : Type}
    (oracle : List Char → Except ε (List Char)) (c : Cube)
    (h : is_solved c = true) :
    solver_solve oracle c = .ok ⟨[], false⟩ := by
  simp [solver_solve, h]

theorem C4_solve_solved_fast_path_witness :
    solver_solve (fun _ : List Char => (Except.error () : Except Unit (List Char)))
      initial_cube = .ok ⟨[], false⟩ :=
  C4_solve_solved_fast_path _ initial_cube (by decide)

/-- C5: on a valid, unsolved cube, if the external collaborator raises an
error on every input then `solve` swallows the error and returns exactly
the fixed 15-token fallback sequence (and it did invoke the collaborator). -/
theorem C5_solver_error_fallback {ε : Type}
    (oracle : List Char → Except ε (List Char)) (c : Cube)
    (hv : is_valid c = true) (hs : is_solved c = false)
    (he : ∀ s, ∃ e, oracle s = .error e) :
    solver_solve oracle c
      = .ok ⟨[['F', '2'], ['R', '2'], ['U', '2'], ['B', '2'], ['L', '2'],
          ['R'], ['U'], ['R', prime], ['U', prime], ['F'],
          ['R'], ['U'], ['R', prime], ['U', prime], ['F', prime]], true⟩ := by
  obtain ⟨str, hstr⟩ := to_kociemba_ok_of_valid c hv
  obtain ⟨e, he'⟩ := he str
  simp [solver_solve, hs, hv, hstr, he', generate_simple_solution, simple_moves]

theorem C5_solver_error_fallback_witness :
    solver_solve (fun _ : List Char => (Except.error () : Except Unit (List Char)))
        (rotate_up true initial_cube)
      = .ok ⟨[['F', '2'], ['R', '2'], ['U', '2'], ['B', '2'], ['L', '2'],
          ['R'], ['U'], ['R', prime], ['U', prime], ['F'],
          ['R'], ['U'], ['R', prime], ['U', prime], ['F', prime]], true⟩ :=
  C5_solver_error_fallback _ (rotate_up true initial_cube) (by decide) (by decide)
    (fun _ => ⟨(), rfl⟩)
